import Mathlib

/-!
Shallow embedding of `src/players/lev1_bot.py` (class `LevBot`), the
rule-based poker decision agent, together with theorems checking the
natural-language specification against it.

Conventions of the embedding:
* Python numbers (ints and floats) are embedded as `ℚ`; the decimal
  constants of the source (`0.2`, `0.6`, ...) are written as the exact
  rationals they denote.
* `random.random()` is embedded as an explicit entropy source
  `rand : ℕ → ℚ`: the k-th call of `random.random()` during one decision
  returns `rand k`.  Call counting follows the source's short-circuit
  evaluation order.
* A Python function that can raise an exception is embedded as returning
  `Option _`, with `none` for the exceptional outcome.  `LevBot.get_action`
  has two exceptional paths: `max({})` on an empty `player_bets` dict
  (line 93) and the `UnboundLocalError` for `raise_amount` in
  `_postflop_strategy` (line 154).
* `Card.rank` is the integer value of the Python `Rank` enum (2..14,
  Ace = 14); equality of `Rank` members coincides with equality of their
  values, so the enum itself is not modelled separately.
-/

/-- One of the four card suits (`engine.cards`, external engine). -/
inductive Suit where
  | spades
  | hearts
  | diamonds
  | clubs
deriving DecidableEq, Repr

/-- A playing card: rank value 2..14 (Ace high) and a suit. -/
structure Card where
  rank : ℕ
  suit : Suit
deriving DecidableEq, Repr

/-- The action enumeration of `bot_api.PlayerAction`. -/
inductive PlayerAction where
  | FOLD
  | CHECK
  | CALL
  | RAISE
  | ALL_IN
deriving DecidableEq, Repr

/-- The hand categories returned by the external evaluator
(`engine.cards.HandEvaluator`), ordered by strength. -/
inductive HandCategory where
  | high_card
  | pair
  | two_pair
  | three_of_a_kind
  | straight
  | flush
  | full_house
  | four_of_a_kind
  | straight_flush
deriving DecidableEq, Repr

/-- Modelled from the spec: `HandEvaluator.HAND_RANKINGS`, the fixed
mapping from hand category to ordinal rank (higher = stronger,
guaranteed total order); `engine/cards.py` is not under `src/`.  The
decision logic only compares ranks against the `pair` and
`three_of_a_kind` entries, so only the order of the values matters. -/
def HAND_RANKINGS : HandCategory → ℕ
  | .high_card => 1
  | .pair => 2
  | .two_pair => 3
  | .three_of_a_kind => 4
  | .straight => 5
  | .flush => 6
  | .full_house => 7
  | .four_of_a_kind => 8
  | .straight_flush => 9

/-- Read-only game state snapshot supplied by the engine each decision
(`engine.poker_game.GameState`); only the fields read by `LevBot` are
modelled.  `player_bets` keeps only the values of the Python dict (the
bot reads it only through `max(...)`). -/
structure GameState where
  round_name : String
  pot : ℚ
  current_bet : ℚ
  big_blind : ℚ
  community_cards : List Card
  player_bets : List ℚ
deriving Repr

/-- The mutable attributes of a `LevBot` instance, as set in
`LevBot.__init__` (lines 14-48). -/
structure LevBot where
  hands_played : ℕ
  hands_won : ℕ
  raise_frequency : ℚ
  play_frequency : ℚ
  premium_hand_play_frequency : ℚ
  raise_amount_multiplier : ℚ
  premium_hand_bet_amount_multiplier : ℚ
  strong_draw_play_rate : ℚ
  is_strong_pot_play_rate : ℚ
  good_hand_play_rate : ℚ
  great_hand_play_rate : ℚ
  good_hand_and_good_pot_play_rate : ℚ
  premium_hands : List (ℕ × ℕ)
deriving Repr

/-- `LevBot.__init__`: the attribute values assigned in the constructor
(lines 18-48).  Rank enum members are written as their values
(ACE = 14, KING = 13, QUEEN = 12, JACK = 11, TEN = 10, NINE = 9). -/
def LevBot.init : LevBot where
  hands_played := 0
  hands_won := 0
  raise_frequency := 1/5
  play_frequency := 3/5
  premium_hand_play_frequency := 1
  raise_amount_multiplier := 3/10
  premium_hand_bet_amount_multiplier := 5/2
  strong_draw_play_rate := 7/10
  is_strong_pot_play_rate := 3/10
  good_hand_play_rate := 4/5
  great_hand_play_rate := 1
  good_hand_and_good_pot_play_rate := 1/2
  premium_hands :=
    [(14, 14), (13, 13), (12, 12),
     (11, 11), (10, 10), (9, 9),
     (14, 13), (14, 12), (14, 11),
     (13, 12), (13, 11), (12, 11)]

/-- The rank values of a list of cards (`card.rank.value` in Python). -/
def ranksOf (cards : List Card) : List ℕ :=
  cards.map Card.rank

/-- The suits of a list of cards. -/
def suitsOf (cards : List Card) : List Suit :=
  cards.map Card.suit

/-- `sorted(list(set(card.rank.value for card in cards)))`: the distinct
rank values in ascending order. -/
def sortedRanks (cards : List Card) : List ℕ :=
  List.insertionSort (· ≤ ·) (ranksOf cards).dedup

/-- The two wheel special cases checked inside the straight-draw loops
(lines 253-254 and 269-270): `set(ranks).issuperset({2,3,4,5}) or
set(ranks).issuperset({14,2,3,4})`. -/
def wheelCheck (ranks : List ℕ) : Bool :=
  ([2, 3, 4, 5].all fun v => ranks.contains v)
    || ([14, 2, 3, 4].all fun v => ranks.contains v)

/-- The open-ended straight-draw loop shared by `_has_strong_draw`
(lines 249-254) and `_is_strong_pot` (lines 265-270): over the sorted
distinct ranks, `for i in range(len(ranks) - 3)`, return `True` when
`ranks[i+3] - ranks[i] == 3 and len(ranks) >= 4`, or on the wheel check. -/
def straightDrawCheck (ranks : List ℕ) : Bool :=
  (List.range (ranks.length - 3)).any fun i =>
    (decide (ranks.getD (i + 3) 0 - ranks.getD i 0 = 3) && decide (4 ≤ ranks.length))
      || wheelCheck ranks

/-- The flush-draw scan of `_has_strong_draw` (lines 243-246):
`for suit in set(suits): if suits.count(suit) == 4: return True`. -/
def flushDrawCheck (suits : List Suit) : Bool :=
  suits.dedup.any fun s => suits.count s == 4

/-- The suit scan of `_is_strong_pot` (lines 259-262):
`if suits.count(suit) == 3 or suits.count(suit) == 4: return True`. -/
def flushBoardCheck (suits : List Suit) : Bool :=
  suits.dedup.any fun s => (suits.count s == 3) || (suits.count s == 4)

/-- `LevBot._has_strong_draw` (lines 240-255). -/
def has_strong_draw (all_cards : List Card) : Bool :=
  flushDrawCheck (suitsOf all_cards) || straightDrawCheck (sortedRanks all_cards)

/-- `LevBot._is_strong_pot` (lines 257-271). -/
def is_strong_pot (community_cards : List Card) : Bool :=
  flushBoardCheck (suitsOf community_cards)
    || straightDrawCheck (sortedRanks community_cards)

/-- `LevBot._is_premium_starting_hand` (lines 273-281): membership of the
hole-card rank pair in `premium_hands`, checked in both orders. -/
def is_premium_starting_hand (self : LevBot) (hole_cards : Card × Card) : Bool :=
  self.premium_hands.contains (hole_cards.1.rank, hole_cards.2.rank)
    || self.premium_hands.contains (hole_cards.2.rank, hole_cards.1.rank)

/-- `LevBot._is_pair_starting_hand` (lines 284-287).  Defined in the
source but never called by the strategies. -/
def is_pair_starting_hand (hole_cards : Card × Card) : Bool :=
  hole_cards.1.rank == hole_cards.2.rank

/-- `LevBot._clamp_raise_amount` (lines 289-294):
`min(amount, max_bet)` then `max(..., min_bet)`. -/
def clamp_raise_amount (min_bet max_bet amount : ℚ) : ℚ :=
  max (min amount max_bet) min_bet

/-- `LevBot._apply_raise_amount_if_able` (lines 229-236).  Returns `none`
for the Python `None` ("no action possible"). -/
def apply_raise_amount_if_able (game_state : GameState)
    (legal_actions : List PlayerAction) (raise_amount : ℚ) :
    Option (PlayerAction × ℚ) :=
  if raise_amount > game_state.current_bet then some (.RAISE, raise_amount)
  else if PlayerAction.CALL ∈ legal_actions then some (.CALL, 0)
  else if PlayerAction.CHECK ∈ legal_actions then some (.CHECK, 0)
  else none

/-- A Python `bool` used in a numeric comparison (`random.random() <
great_hand_rank` on lines 161 and 171): `True` is `1`, `False` is `0`. -/
def boolVal (b : Bool) : ℚ :=
  if b then 1 else 0

/-- Modelled from the spec: does a five-card straight (five consecutive
distinct rank values, Ace playing high or low) occur among `ranks`?
Part of the external evaluator `engine/cards.py`, not under `src/`. -/
def hasRunOf5 (ranks : List ℕ) : Bool :=
  ((List.range 9).any fun k =>
      [k + 2, k + 3, k + 4, k + 5, k + 6].all fun v => ranks.contains v)
    || ([14, 2, 3, 4, 5].all fun v => ranks.contains v)

/-- Modelled from the spec: does some rank occur at least `k` times? -/
def hasOfAKind (cards : List Card) (k : ℕ) : Bool :=
  (ranksOf cards).any fun r => decide (k ≤ (ranksOf cards).count r)

/-- Modelled from the spec: the number of distinct ranks occurring at
least twice. -/
def pairsCount (cards : List Card) : ℕ :=
  ((ranksOf cards).dedup.filter fun r => decide (2 ≤ (ranksOf cards).count r)).length

/-- Modelled from the spec: five or more cards of one suit. -/
def hasFlush (cards : List Card) : Bool :=
  (suitsOf cards).dedup.any fun s => decide (5 ≤ (suitsOf cards).count s)

/-- Modelled from the spec: a straight within the cards of one suit. -/
def hasStraightFlush (cards : List Card) : Bool :=
  (suitsOf cards).dedup.any fun s =>
    hasRunOf5 (ranksOf (cards.filter fun c => c.suit == s))

/-- Modelled from the spec: three of one rank plus two of another. -/
def hasFullHouse (cards : List Card) : Bool :=
  (ranksOf cards).any fun r =>
    decide (3 ≤ (ranksOf cards).count r)
      && ((ranksOf cards).any fun r2 =>
            (!(r2 == r)) && decide (2 ≤ (ranksOf cards).count r2))

/-- Modelled from the spec: `HandEvaluator.evaluate_best_hand`
(`engine/cards.py`, not under `src/`), restricted to the hand category of
the best five-card hand among the given 5-7 cards; the tiebreak
information of the Python return value is dropped because `LevBot`
discards it (line 143). -/
def evaluate_best_hand (cards : List Card) : HandCategory :=
  if hasStraightFlush cards then .straight_flush
  else if hasOfAKind cards 4 then .four_of_a_kind
  else if hasFullHouse cards then .full_house
  else if hasFlush cards then .flush
  else if hasRunOf5 (ranksOf cards) then .straight
  else if hasOfAKind cards 3 then .three_of_a_kind
  else if 2 ≤ pairsCount cards then .two_pair
  else if hasOfAKind cards 2 then .pair
  else .high_card

/-- The tail of `LevBot._postflop_strategy` from the "great hand" branch
on (lines 159-199).  `n` is the index of the next unread value of the
entropy source; the index bookkeeping mirrors the short-circuit
evaluation of lines 161, 171 and 188 (a `random.random()` call happens
only when `PlayerAction.RAISE in legal_actions` on lines 161 and 171,
and unconditionally on line 188). -/
def postflop_tail (self : LevBot) (rand : ℕ → ℚ) (n : ℕ) (game_state : GameState)
    (legal_actions : List PlayerAction) (min_bet max_bet : ℚ) (hand_rank : ℕ) :
    Option (PlayerAction × ℚ) :=
  let good_hand_rank : Bool := decide (HAND_RANKINGS .pair ≤ hand_rank)
  let great_hand_rank : Bool := decide (HAND_RANKINGS .three_of_a_kind ≤ hand_rank)
  let greatAttempt : Option (PlayerAction × ℚ) :=
    if great_hand_rank = true ∧ PlayerAction.RAISE ∈ legal_actions
        ∧ rand n < boolVal great_hand_rank then
      apply_raise_amount_if_able game_state legal_actions
        (clamp_raise_amount min_bet max_bet (game_state.pot * self.raise_amount_multiplier))
    else none
  let n1 : ℕ :=
    if great_hand_rank = true ∧ PlayerAction.RAISE ∈ legal_actions then n + 1 else n
  match greatAttempt with
  | some r => some r
  | none =>
    let goodAttempt : Option (PlayerAction × ℚ) :=
      if good_hand_rank = true ∧ PlayerAction.RAISE ∈ legal_actions
          ∧ rand n1 < boolVal good_hand_rank then
        apply_raise_amount_if_able game_state legal_actions
          (clamp_raise_amount min_bet max_bet (game_state.pot * self.raise_amount_multiplier))
      else none
    let n2 : ℕ :=
      if good_hand_rank = true ∧ PlayerAction.RAISE ∈ legal_actions then n1 + 1 else n1
    match goodAttempt with
    | some r => some r
    | none =>
      if hand_rank < HAND_RANKINGS .pair ∧ PlayerAction.CALL ∈ legal_actions then
        some (.CALL, 0)
      else if hand_rank < HAND_RANKINGS .pair ∧ PlayerAction.CHECK ∈ legal_actions then
        some (.CHECK, 0)
      else if rand n2 < self.raise_frequency then
        let raise_amount := clamp_raise_amount min_bet max_bet (game_state.pot / 2)
        if raise_amount > game_state.current_bet then some (.RAISE, raise_amount)
        else if PlayerAction.CHECK ∈ legal_actions then some (.CHECK, 0)
        else some (.FOLD, 0)
      else if PlayerAction.CHECK ∈ legal_actions then some (.CHECK, 0)
      else some (.FOLD, 0)

/-- `LevBot._postflop_strategy` (lines 139-199).  The branch of lines
152-155 evaluates the name `raise_amount` before any assignment to it,
which raises `UnboundLocalError` in Python; that outcome is `none`. -/
def postflop_strategy (self : LevBot) (rand : ℕ → ℚ) (game_state : GameState)
    (hole_cards : Card × Card) (legal_actions : List PlayerAction)
    (min_bet max_bet : ℚ) : Option (PlayerAction × ℚ) :=
  let all_cards : List Card := [hole_cards.1, hole_cards.2] ++ game_state.community_cards
  let hand_rank : ℕ := HAND_RANKINGS (evaluate_best_hand all_cards)
  let strong_draw : Bool := has_strong_draw all_cards
  let strong_pot : Bool := is_strong_pot all_cards
  let good_hand_rank : Bool := decide (HAND_RANKINGS .pair ≤ hand_rank)
  if good_hand_rank = true ∧ strong_pot = true then
    if rand 0 < self.good_hand_and_good_pot_play_rate then
      none
    else
      postflop_tail self rand 1 game_state legal_actions min_bet max_bet hand_rank
  else
    postflop_tail self rand 0 game_state legal_actions min_bet max_bet hand_rank

/-- `LevBot._preflop_strategy` (lines 85-135).  Line 90 assigns to
`pair_starting_hand` the value of `_is_premium_starting_hand` (not of
`_is_pair_starting_hand`), exactly as the source does.  Line 93 computes
`max(game_state.player_bets.values())`, which raises `ValueError` when
the dict is empty; that outcome is `none` (the comparison's value is
otherwise discarded by the `pass`). -/
def preflop_strategy (self : LevBot) (rand : ℕ → ℚ) (game_state : GameState)
    (hole_cards : Card × Card) (legal_actions : List PlayerAction)
    (min_bet max_bet : ℚ) : Option (PlayerAction × ℚ) :=
  let premium_starting_hand : Bool := is_premium_starting_hand self hole_cards
  let pair_starting_hand : Bool := is_premium_starting_hand self hole_cards
  if game_state.player_bets = [] then
    none
  else if pair_starting_hand = true ∨ premium_starting_hand = true then
    if PlayerAction.CALL ∈ legal_actions then some (.CALL, 0)
    else if PlayerAction.CHECK ∈ legal_actions then some (.CHECK, 0)
    else some (.FOLD, 0)
  else if ¬ rand 0 < self.play_frequency then
    some (.FOLD, 0)
  else
    let raiseAttempt : Option (PlayerAction × ℚ) :=
      if PlayerAction.RAISE ∈ legal_actions ∧ rand 1 < self.raise_frequency then
        apply_raise_amount_if_able game_state legal_actions
          (clamp_raise_amount min_bet max_bet
            (self.raise_amount_multiplier * game_state.big_blind))
      else none
    match raiseAttempt with
    | some r => some r
    | none =>
      if PlayerAction.CALL ∈ legal_actions then some (.CALL, 0)
      else if PlayerAction.CHECK ∈ legal_actions then some (.CHECK, 0)
      else some (.FOLD, 0)

/-- `LevBot.get_action` (lines 54-81): dispatch on the round name. -/
def get_action (self : LevBot) (rand : ℕ → ℚ) (game_state : GameState)
    (hole_cards : Card × Card) (legal_actions : List PlayerAction)
    (min_bet max_bet : ℚ) : Option (PlayerAction × ℚ) :=
  if game_state.round_name = "preflop" then
    preflop_strategy self rand game_state hole_cards legal_actions min_bet max_bet
  else
    postflop_strategy self rand game_state hole_cards legal_actions min_bet max_bet

/-- `LevBot.tournament_start` (lines 311-320).  The body after the
`super()` call is a triple-quoted string literal, i.e. the player-count
tier table is commented out, so the method changes no attribute of the
bot.  Modelled from the spec: the base-class hook
`PokerBotAPI.tournament_start` (`bot_api`, not under `src/`) does
engine-side bookkeeping only and touches none of the agent tuning state
listed in the spec's data model, so it is the identity on `LevBot`. -/
def LevBot.tournament_start (self : LevBot) (players : List String)
    (starting_chips : ℕ) : LevBot :=
  self

/-- `LevBot.hand_complete` (lines 297-309): a no-op (`pass`); the
`hand_result` dict is ignored and therefore not modelled. -/
def LevBot.hand_complete (self : LevBot) (game_state : GameState) : LevBot :=
  self

/-- The dangerous-board predicate in the words of the spec (for the
refinement comparison of the claims): over the community cards alone,
three or more cards share a suit, or four distinct ranks span a run of
four consecutive values, including the wheel cases. -/
def claimedDangerousBoard (community_cards : List Card) : Bool :=
  ((suitsOf community_cards).dedup.any fun s =>
      decide (3 ≤ (suitsOf community_cards).count s))
    || straightDrawCheck (sortedRanks community_cards)

/-!  Helper lemmas shared by the claim theorems. -/

lemma le_clamp (min_bet max_bet x : ℚ) :
    min_bet ≤ clamp_raise_amount min_bet max_bet x :=
  le_max_right _ _

lemma clamp_le {min_bet max_bet : ℚ} (x : ℚ) (h : min_bet ≤ max_bet) :
    clamp_raise_amount min_bet max_bet x ≤ max_bet :=
  max_le (min_le_right _ _) h

lemma apply_raise_cases {gs : GameState} {legal : List PlayerAction} {ra : ℚ}
    {p : PlayerAction × ℚ}
    (h : apply_raise_amount_if_able gs legal ra = some p) :
    (p = (.RAISE, ra) ∧ gs.current_bet < ra)
    ∨ (p = (.CALL, 0) ∧ PlayerAction.CALL ∈ legal)
    ∨ (p = (.CHECK, 0) ∧ PlayerAction.CHECK ∈ legal) := by
  unfold apply_raise_amount_if_able at h
  split_ifs at h with h1 h2 h3 <;> simp_all

lemma raise_attempt_cases {gs : GameState} {legal : List PlayerAction}
    {min_bet max_bet x : ℚ} {p : PlayerAction × ℚ}
    (h : apply_raise_amount_if_able gs legal
          (clamp_raise_amount min_bet max_bet x) = some p) :
    (p.1 = .RAISE ∧ (∃ y, p.2 = clamp_raise_amount min_bet max_bet y)
      ∧ gs.current_bet < p.2)
    ∨ (p = (.CALL, 0) ∧ PlayerAction.CALL ∈ legal)
    ∨ (p = (.CHECK, 0) ∧ PlayerAction.CHECK ∈ legal)
    ∨ p = (.FOLD, 0) := by
  rcases apply_raise_cases h with ⟨rfl, hc⟩ | ⟨rfl, hc⟩ | ⟨rfl, hc⟩
  · exact Or.inl ⟨rfl, ⟨x, rfl⟩, hc⟩
  · exact Or.inr (Or.inl ⟨rfl, hc⟩)
  · exact Or.inr (Or.inr (Or.inl ⟨rfl, hc⟩))

lemma postflop_tail_cases {self : LevBot} {rand : ℕ → ℚ} {n : ℕ} {gs : GameState}
    {legal : List PlayerAction} {min_bet max_bet : ℚ} {hand_rank : ℕ}
    {p : PlayerAction × ℚ}
    (h : postflop_tail self rand n gs legal min_bet max_bet hand_rank = some p) :
    (p.1 = .RAISE ∧ (∃ x, p.2 = clamp_raise_amount min_bet max_bet x)
      ∧ gs.current_bet < p.2)
    ∨ (p = (.CALL, 0) ∧ PlayerAction.CALL ∈ legal)
    ∨ (p = (.CHECK, 0) ∧ PlayerAction.CHECK ∈ legal)
    ∨ p = (.FOLD, 0) := by
  simp only [postflop_tail] at h
  split at h
  case _ r heq =>
    injection h with h; subst h
    split_ifs at heq <;> first | exact raise_attempt_cases heq | simp_all
  case _ heq =>
    split at h
    case _ r heq2 =>
      injection h with h; subst h
      split_ifs at heq2 <;> first | exact raise_attempt_cases heq2 | simp_all
    case _ heq2 =>
      split_ifs at h with h1 h2 h3 h4 h5 h6 h7 <;>
        first
        | (injection h with h; subst h;
           first
           | exact Or.inl ⟨rfl, ⟨gs.pot / 2, rfl⟩, by assumption⟩
           | exact Or.inr (Or.inl ⟨rfl, by tauto⟩)
           | exact Or.inr (Or.inr (Or.inl ⟨rfl, by tauto⟩))
           | exact Or.inr (Or.inr (Or.inr rfl)))

lemma match_some_cases {o : Option (PlayerAction × ℚ)} {d p : PlayerAction × ℚ}
    (h : (match o with | some r => some r | none => some d) = some p) :
    o = some p ∨ (o = none ∧ p = d) := by
  cases o <;> simp_all

lemma postflop_cases {self : LevBot} {rand : ℕ → ℚ} {gs : GameState}
    {hole : Card × Card} {legal : List PlayerAction} {min_bet max_bet : ℚ}
    {p : PlayerAction × ℚ}
    (h : postflop_strategy self rand gs hole legal min_bet max_bet = some p) :
    (p.1 = .RAISE ∧ (∃ x, p.2 = clamp_raise_amount min_bet max_bet x)
      ∧ gs.current_bet < p.2)
    ∨ (p = (.CALL, 0) ∧ PlayerAction.CALL ∈ legal)
    ∨ (p = (.CHECK, 0) ∧ PlayerAction.CHECK ∈ legal)
    ∨ p = (.FOLD, 0) := by
  simp only [postflop_strategy] at h
  split_ifs at h <;> first | exact postflop_tail_cases h | simp_all

lemma preflop_cases {self : LevBot} {rand : ℕ → ℚ} {gs : GameState}
    {hole : Card × Card} {legal : List PlayerAction} {min_bet max_bet : ℚ}
    {p : PlayerAction × ℚ}
    (h : preflop_strategy self rand gs hole legal min_bet max_bet = some p) :
    (p.1 = .RAISE ∧ (∃ x, p.2 = clamp_raise_amount min_bet max_bet x)
      ∧ gs.current_bet < p.2)
    ∨ (p = (.CALL, 0) ∧ PlayerAction.CALL ∈ legal)
    ∨ (p = (.CHECK, 0) ∧ PlayerAction.CHECK ∈ legal)
    ∨ p = (.FOLD, 0) := by
  simp only [preflop_strategy] at h
  split_ifs at h <;> try simp_all
  all_goals
    rcases match_some_cases h with heq | ⟨heq, rfl⟩
    · have := raise_attempt_cases heq
      tauto
    · simp_all

lemma get_action_cases {self : LevBot} {rand : ℕ → ℚ} {gs : GameState}
    {hole : Card × Card} {legal : List PlayerAction} {min_bet max_bet : ℚ}
    {p : PlayerAction × ℚ}
    (h : get_action self rand gs hole legal min_bet max_bet = some p) :
    (p.1 = .RAISE ∧ (∃ x, p.2 = clamp_raise_amount min_bet max_bet x)
      ∧ gs.current_bet < p.2)
    ∨ (p = (.CALL, 0) ∧ PlayerAction.CALL ∈ legal)
    ∨ (p = (.CHECK, 0) ∧ PlayerAction.CHECK ∈ legal)
    ∨ p = (.FOLD, 0) := by
  unfold get_action at h
  split_ifs at h
  · exact preflop_cases h
  · exact postflop_cases h

/-!  Claim theorems. -/

/-- C1 counterexample: a postflop input satisfying the claimed
preconditions (legal_actions non-empty; RAISE is not legal, so the bound
condition holds vacuously) on which `get_action` returns RAISE, an
action absent from `legal_actions`: with a paired hand, a safe board and
a successful half-pot-raise random draw, lines 188-193 of the source
return RAISE without consulting `legal_actions`. -/
theorem c1_counterexample :
    get_action LevBot.init (fun _ => 1/10)
      { round_name := "flop", pot := 40, current_bet := 0, big_blind := 10,
        community_cards := [⟨2, .spades⟩, ⟨5, .clubs⟩, ⟨9, .diamonds⟩],
        player_bets := [0] }
      (⟨13, .hearts⟩, ⟨13, .diamonds⟩)
      [.FOLD, .CHECK] 10 100 = some (.RAISE, 20)
    ∧ PlayerAction.RAISE ∉ [PlayerAction.FOLD, PlayerAction.CHECK]
    ∧ ([PlayerAction.FOLD, PlayerAction.CHECK] : List PlayerAction) ≠ [] := by
  refine ⟨?_, by decide, by decide⟩
  have h1 : evaluate_best_hand
      [⟨13, .hearts⟩, ⟨13, .diamonds⟩, ⟨2, .spades⟩, ⟨5, .clubs⟩, ⟨9, .diamonds⟩]
      = .pair := by decide
  have h2 : is_strong_pot
      [⟨13, .hearts⟩, ⟨13, .diamonds⟩, ⟨2, .spades⟩, ⟨5, .clubs⟩, ⟨9, .diamonds⟩]
      = false := by decide
  unfold get_action postflop_strategy postflop_tail
  norm_num +decide [h1, h2, HAND_RANKINGS, LevBot.init, clamp_raise_amount,
    apply_raise_amount_if_able, boolVal]

/-- C1 amended: whenever FOLD and RAISE are both members of
`legal_actions`, the action returned by `get_action` is a member of
`legal_actions` (the escapes of the original claim are exactly the
unguarded FOLD fallbacks and the unguarded postflop half-pot RAISE of
lines 188-193). -/
theorem c1_amended_action_legal (self : LevBot) (rand : ℕ → ℚ) (gs : GameState)
    (hole : Card × Card) (legal : List PlayerAction) (min_bet max_bet : ℚ)
    (p : PlayerAction × ℚ)
    (hFOLD : PlayerAction.FOLD ∈ legal) (hRAISE : PlayerAction.RAISE ∈ legal)
    (h : get_action self rand gs hole legal min_bet max_bet = some p) :
    p.1 ∈ legal := by
  rcases get_action_cases h with ⟨h1, _, _⟩ | ⟨rfl, hc⟩ | ⟨rfl, hc⟩ | rfl
  · rw [h1]; exact hRAISE
  · exact hc
  · exact hc
  · exact hFOLD

/-- C1 witness: the amended theorem applied at a concrete preflop input
(premium hole cards, all of FOLD, CALL, RAISE legal), where the bot
calls. -/
theorem c1_amended_action_legal_witness :
    (PlayerAction.CALL, (0:ℚ)).1
      ∈ [PlayerAction.FOLD, PlayerAction.CALL, PlayerAction.RAISE] := by
  refine c1_amended_action_legal LevBot.init (fun _ => 0)
    { round_name := "preflop", pot := 30, current_bet := 20, big_blind := 10,
      community_cards := [], player_bets := [20] }
    (⟨14, .spades⟩, ⟨14, .hearts⟩)
    [.FOLD, .CALL, .RAISE] 20 500 (.CALL, 0) (by decide) (by decide) ?_
  unfold get_action preflop_strategy
  norm_num +decide [LevBot.init, is_premium_starting_hand]

/-- C2: the claim says every well-formed decision completes normally,
but the source contradicts its own intent (spec §4.1 step 4a: "attempt a
pot-scaled raise"): line 154 reads `raise_amount` before any assignment,
raising `UnboundLocalError`.  At this concrete well-formed input (paired
hand, three spades on board, random draw 3/10 below the configured rate
1/2) the decision aborts, i.e. the embedding returns `none`. -/
theorem c2_failing_input_aborts :
    get_action LevBot.init (fun _ => 3/10)
      { round_name := "flop", pot := 40, current_bet := 0, big_blind := 10,
        community_cards := [⟨2, .spades⟩, ⟨5, .spades⟩, ⟨9, .spades⟩],
        player_bets := [0] }
      (⟨13, .hearts⟩, ⟨13, .diamonds⟩)
      [.FOLD, .CHECK, .CALL, .RAISE] 10 100 = none := by
  have h1 : evaluate_best_hand
      [⟨13, .hearts⟩, ⟨13, .diamonds⟩, ⟨2, .spades⟩, ⟨5, .spades⟩, ⟨9, .spades⟩]
      = .pair := by decide
  have h2 : is_strong_pot
      [⟨13, .hearts⟩, ⟨13, .diamonds⟩, ⟨2, .spades⟩, ⟨5, .spades⟩, ⟨9, .spades⟩]
      = true := by decide
  unfold get_action postflop_strategy
  norm_num +decide [h1, h2, HAND_RANKINGS, LevBot.init]

/-- C3 counterexample: an input satisfying the claimed preconditions
(RAISE is not legal, so `min_bet <= max_bet` is not required) on which
`get_action` returns a RAISE whose amount `100` exceeds `max_bet = 50`:
the half-pot raise of lines 188-193 clamps with `max` after `min`, so
`min_bet = 100 > max_bet = 50` yields an amount above `max_bet`. -/
theorem c3_counterexample :
    get_action LevBot.init (fun _ => 1/10)
      { round_name := "flop", pot := 40, current_bet := 0, big_blind := 10,
        community_cards := [⟨9, .diamonds⟩, ⟨13, .clubs⟩, ⟨4, .spades⟩],
        player_bets := [0] }
      (⟨2, .spades⟩, ⟨7, .hearts⟩)
      [.FOLD] 100 50 = some (.RAISE, 100)
    ∧ ¬ ((100:ℚ) ≤ 50)
    ∧ PlayerAction.RAISE ∉ [PlayerAction.FOLD] := by
  refine ⟨?_, by norm_num, by decide⟩
  have h1 : evaluate_best_hand
      [⟨2, .spades⟩, ⟨7, .hearts⟩, ⟨9, .diamonds⟩, ⟨13, .clubs⟩, ⟨4, .spades⟩]
      = .high_card := by decide
  have h2 : is_strong_pot
      [⟨2, .spades⟩, ⟨7, .hearts⟩, ⟨9, .diamonds⟩, ⟨13, .clubs⟩, ⟨4, .spades⟩]
      = false := by decide
  unfold get_action postflop_strategy postflop_tail
  norm_num +decide [h1, h2, HAND_RANKINGS, LevBot.init, clamp_raise_amount,
    apply_raise_amount_if_able, boolVal]

/-- C3 amended: with the precondition strengthened to `min_bet ≤ max_bet`
unconditionally (not only when RAISE is legal), every returned RAISE
amount lies in `[min_bet, max_bet]` and strictly exceeds the current bet
to match, and every other returned action carries amount `0`. -/
theorem c3_amended_raise_bounds (self : LevBot) (rand : ℕ → ℚ) (gs : GameState)
    (hole : Card × Card) (legal : List PlayerAction) (min_bet max_bet : ℚ)
    (p : PlayerAction × ℚ)
    (hmm : min_bet ≤ max_bet)
    (h : get_action self rand gs hole legal min_bet max_bet = some p) :
    (p.1 = .RAISE → min_bet ≤ p.2 ∧ p.2 ≤ max_bet ∧ gs.current_bet < p.2)
    ∧ (p.1 ≠ .RAISE → p.2 = 0) := by
  rcases get_action_cases h with ⟨h1, ⟨x, hx⟩, hcb⟩ | ⟨rfl, _⟩ | ⟨rfl, _⟩ | rfl
  · exact ⟨fun _ => ⟨hx ▸ le_clamp min_bet max_bet x, hx ▸ clamp_le x hmm, hcb⟩,
      fun hne => absurd h1 hne⟩
  · exact ⟨fun hr => absurd hr (by decide), fun _ => rfl⟩
  · exact ⟨fun hr => absurd hr (by decide), fun _ => rfl⟩
  · exact ⟨fun hr => absurd hr (by decide), fun _ => rfl⟩

/-- C3 witness: the amended theorem applied at a concrete preflop input
with `min_bet = 20 ≤ max_bet = 500`, where the bot calls with amount 0. -/
theorem c3_amended_raise_bounds_witness :
    ((PlayerAction.CALL, (0:ℚ)).1 = PlayerAction.RAISE →
      (20:ℚ) ≤ 0 ∧ (0:ℚ) ≤ 500 ∧ (20:ℚ) < 0)
    ∧ ((PlayerAction.CALL, (0:ℚ)).1 ≠ PlayerAction.RAISE → (0:ℚ) = 0) := by
  refine c3_amended_raise_bounds LevBot.init (fun _ => 0)
    { round_name := "preflop", pot := 30, current_bet := 20, big_blind := 10,
      community_cards := [], player_bets := [20] }
    (⟨14, .spades⟩, ⟨14, .hearts⟩)
    [.FOLD, .CALL, .RAISE] 20 500 (.CALL, 0) (by norm_num) ?_
  unfold get_action preflop_strategy
  norm_num +decide [LevBot.init, is_premium_starting_hand]

/-- C4: the claim (spec §4.1 step 2) says paired hole cards take the
passive CALL-else-CHECK-else-FOLD path, but line 90 of the source assigns
`pair_starting_hand = self._is_premium_starting_hand(hole_cards)` — the
dedicated `_is_pair_starting_hand` predicate (which is true here) is
never called — so the non-premium pair 8♠8♥ falls through to the random
play-frequency gate and folds on a draw of 7/10 ≥ 3/5 even though CALL is
legal; the premium-pair scenario A♠A♥ itself behaves as claimed. -/
theorem c4_failing_input_folds_pair :
    is_pair_starting_hand (⟨8, .spades⟩, ⟨8, .hearts⟩) = true
    ∧ get_action LevBot.init (fun _ => 7/10)
        { round_name := "preflop", pot := 30, current_bet := 20, big_blind := 10,
          community_cards := [], player_bets := [20] }
        (⟨8, .spades⟩, ⟨8, .hearts⟩)
        [.FOLD, .CALL, .RAISE] 20 500 = some (.FOLD, 0)
    ∧ get_action LevBot.init (fun _ => 7/10)
        { round_name := "preflop", pot := 30, current_bet := 20, big_blind := 10,
          community_cards := [], player_bets := [20] }
        (⟨14, .spades⟩, ⟨14, .hearts⟩)
        [.FOLD, .CALL, .RAISE] 20 500 = some (.CALL, 0) := by
  refine ⟨by decide, ?_, ?_⟩ <;>
    (unfold get_action preflop_strategy
     norm_num +decide [LevBot.init, is_premium_starting_hand])

/-- C5 counterexample: `tournament_start` applies no player-count tier
tuning at all — the tier table of lines 313-320 is a triple-quoted
string, i.e. commented out — so a 3-player start and a 9-player start
both leave the bot exactly at its constructor defaults
(`raise_frequency = 1/5`, `play_frequency = 3/5`), contradicting the
claimed looser-vs-tighter tier behaviour. -/
theorem c5_counterexample :
    LevBot.init.tournament_start ["p1", "p2", "p3"] 1000 = LevBot.init
    ∧ LevBot.init.tournament_start
        ["p1", "p2", "p3", "p4", "p5", "p6", "p7", "p8", "p9"] 1000 = LevBot.init
    ∧ (LevBot.init.tournament_start ["p1", "p2", "p3"] 1000).raise_frequency
        = (LevBot.init.tournament_start
            ["p1", "p2", "p3", "p4", "p5", "p6", "p7", "p8", "p9"] 1000).raise_frequency
    ∧ (LevBot.init.tournament_start ["p1", "p2", "p3"] 1000).play_frequency
        = (LevBot.init.tournament_start
            ["p1", "p2", "p3", "p4", "p5", "p6", "p7", "p8", "p9"] 1000).play_frequency :=
  ⟨rfl, rfl, rfl, rfl⟩

/-- C5 amended: the tuning scalars are never mutated at all — both
lifecycle hooks (`tournament_start`, whose tier table is commented out,
and the no-op `hand_complete`) return the bot unchanged, so the scalars
keep their constructor values for the tournament's duration. -/
theorem c5_amended_tuning_never_mutated (b : LevBot) (players : List String)
    (starting_chips : ℕ) (gs : GameState) :
    b.tournament_start players starting_chips = b ∧ b.hand_complete gs = b :=
  ⟨rfl, rfl⟩

/-- Membership in the sorted distinct ranks is membership among the rank
values. -/
lemma mem_sortedRanks {a : ℕ} {cards : List Card} :
    a ∈ sortedRanks cards ↔ a ∈ ranksOf cards := by
  unfold sortedRanks
  rw [(List.perm_insertionSort _ _).mem_iff, List.mem_dedup]

/-- A duplicate-free list contained in another list is no longer than it. -/
lemma length_le_of_nodup_subset {s l : List ℕ} (hs : s.Nodup) (hsub : s ⊆ l) :
    s.length ≤ l.length :=
  (List.subperm_of_subset hs hsub).length_le


/-- C6 counterexample: the postflop dangerous-board signal is
`_is_strong_pot` applied to hole plus community cards (line 147 passes
`all_cards`), not to the community cards alone, and its suit test fires
on exactly 3 or exactly 4 suited cards rather than "three or more".
With hole 2♠7♠ and board 9♠K♠4♥ the code's signal is true (four spades
among all five cards) while the claimed community-only predicate is
false (only two spades on board); and a monotone five-spade board is
missed by the code (count 5 is neither 3 nor 4) while the claimed
3-or-more predicate holds. -/
theorem c6_counterexample :
    is_strong_pot ([⟨2, .spades⟩, ⟨7, .spades⟩]
        ++ [⟨9, .spades⟩, ⟨13, .spades⟩, ⟨4, .hearts⟩]) = true
    ∧ claimedDangerousBoard [⟨9, .spades⟩, ⟨13, .spades⟩, ⟨4, .hearts⟩] = false
    ∧ is_strong_pot [⟨2, .spades⟩, ⟨4, .spades⟩, ⟨6, .spades⟩,
        ⟨8, .spades⟩, ⟨10, .spades⟩] = false
    ∧ claimedDangerousBoard [⟨2, .spades⟩, ⟨4, .spades⟩, ⟨6, .spades⟩,
        ⟨8, .spades⟩, ⟨10, .spades⟩] = true := by
  decide

/-- C6 amended: the dangerous-board signal is `_is_strong_pot` over hole
plus community cards, and `_is_strong_pot` holds exactly when some suit
occurs exactly 3 or exactly 4 times among its input cards, or the sorted
distinct ranks contain a window of four consecutive values, or the rank
values include the wheel sets 2,3,4,5 or A,2,3,4. -/
theorem c6_amended_board_danger (cards : List Card) :
    is_strong_pot cards = true ↔
      (∃ s : Suit, (suitsOf cards).count s = 3 ∨ (suitsOf cards).count s = 4)
      ∨ (∃ i, i + 3 < (sortedRanks cards).length ∧
          (sortedRanks cards).getD (i + 3) 0 = (sortedRanks cards).getD i 0 + 3)
      ∨ ((2:ℕ) ∈ ranksOf cards ∧ (3:ℕ) ∈ ranksOf cards
          ∧ (4:ℕ) ∈ ranksOf cards ∧ (5:ℕ) ∈ ranksOf cards)
      ∨ ((14:ℕ) ∈ ranksOf cards ∧ (2:ℕ) ∈ ranksOf cards
          ∧ (3:ℕ) ∈ ranksOf cards ∧ (4:ℕ) ∈ ranksOf cards) := by
  simp only [is_strong_pot, flushBoardCheck, straightDrawCheck, wheelCheck,
    Bool.or_eq_true, List.any_eq_true, List.mem_dedup, List.mem_range,
    Bool.and_eq_true, decide_eq_true_eq, beq_iff_eq, List.all_eq_true,
    List.elem_iff, List.mem_cons, List.not_mem_nil, or_false,
    forall_eq_or_imp, forall_eq]
  constructor
  · rintro (⟨s, hs, hc⟩ | ⟨i, hi, hrun | hw2345 | hwA234⟩)
    · exact Or.inl ⟨s, hc⟩
    · refine Or.inr (Or.inl ⟨i, by omega, by omega⟩)
    · refine Or.inr (Or.inr (Or.inl ?_))
      obtain ⟨h2, h3, h4, h5⟩ := hw2345
      exact ⟨mem_sortedRanks.mp h2, mem_sortedRanks.mp h3,
        mem_sortedRanks.mp h4, mem_sortedRanks.mp h5⟩
    · refine Or.inr (Or.inr (Or.inr ?_))
      obtain ⟨h14, h2, h3, h4⟩ := hwA234
      exact ⟨mem_sortedRanks.mp h14, mem_sortedRanks.mp h2,
        mem_sortedRanks.mp h3, mem_sortedRanks.mp h4⟩
  · rintro (⟨s, hc⟩ | ⟨i, hi, hrun⟩ | ⟨h2, h3, h4, h5⟩ | ⟨h14, h2, h3, h4⟩)
    · refine Or.inl ⟨s, ?_, hc⟩
      have : 0 < (suitsOf cards).count s := by omega
      exact List.count_pos_iff.mp this
    · exact Or.inr ⟨i, by omega, Or.inl ⟨by omega, by omega⟩⟩
    · have hlen : 4 ≤ (sortedRanks cards).length := by
        have := length_le_of_nodup_subset (s := [2,3,4,5]) (l := sortedRanks cards)
          (by decide) ?_
        · simpa using this
        · intro a ha
          simp only [List.mem_cons, List.not_mem_nil, or_false] at ha
          rcases ha with rfl | rfl | rfl | rfl
          · exact mem_sortedRanks.mpr h2
          · exact mem_sortedRanks.mpr h3
          · exact mem_sortedRanks.mpr h4
          · exact mem_sortedRanks.mpr h5
      exact Or.inr ⟨0, by omega, Or.inr (Or.inl ⟨mem_sortedRanks.mpr h2,
        mem_sortedRanks.mpr h3, mem_sortedRanks.mpr h4, mem_sortedRanks.mpr h5⟩)⟩
    · have hlen : 4 ≤ (sortedRanks cards).length := by
        have := length_le_of_nodup_subset (s := [14,2,3,4]) (l := sortedRanks cards)
          (by decide) ?_
        · simpa using this
        · intro a ha
          simp only [List.mem_cons, List.not_mem_nil, or_false] at ha
          rcases ha with rfl | rfl | rfl | rfl
          · exact mem_sortedRanks.mpr h14
          · exact mem_sortedRanks.mpr h2
          · exact mem_sortedRanks.mpr h3
          · exact mem_sortedRanks.mpr h4
      exact Or.inr ⟨0, by omega, Or.inr (Or.inr ⟨mem_sortedRanks.mpr h14,
        mem_sortedRanks.mpr h2, mem_sortedRanks.mpr h3, mem_sortedRanks.mpr h4⟩)⟩

/-- C7: in every postflop decision whose evaluated hand rank is below
pair strength, `get_action` returns (CALL, 0) whenever CALL is legal,
and (CHECK, 0) whenever CALL is not legal but CHECK is — regardless of
the entropy source, so the branch never voluntarily folds. -/
theorem c7_weak_hand_prefers_call (self : LevBot) (rand : ℕ → ℚ) (gs : GameState)
    (hole : Card × Card) (legal : List PlayerAction) (min_bet max_bet : ℚ)
    (hround : gs.round_name ≠ "preflop")
    (hweak : HAND_RANKINGS (evaluate_best_hand
        ([hole.1, hole.2] ++ gs.community_cards)) < HAND_RANKINGS .pair) :
    (PlayerAction.CALL ∈ legal →
      get_action self rand gs hole legal min_bet max_bet = some (.CALL, 0))
    ∧ (PlayerAction.CALL ∉ legal → PlayerAction.CHECK ∈ legal →
      get_action self rand gs hole legal min_bet max_bet = some (.CHECK, 0)) := by
  have hg : decide (HAND_RANKINGS .pair ≤ HAND_RANKINGS (evaluate_best_hand
      ([hole.1, hole.2] ++ gs.community_cards))) = false := by
    simp only [decide_eq_false_iff_not, not_le]
    exact hweak
  have hgr : decide (HAND_RANKINGS .three_of_a_kind ≤ HAND_RANKINGS (evaluate_best_hand
      ([hole.1, hole.2] ++ gs.community_cards))) = false := by
    simp only [decide_eq_false_iff_not, not_le]
    have h24 : HAND_RANKINGS HandCategory.pair ≤ HAND_RANKINGS HandCategory.three_of_a_kind := by
      decide
    omega
  constructor
  · intro hCALL
    simp only [get_action, postflop_strategy, postflop_tail, if_neg hround, hg, hgr,
      Bool.false_eq_true, false_and, if_false, and_true, if_pos (And.intro hweak hCALL)]
  · intro hCALL hCHECK
    simp only [get_action, postflop_strategy, postflop_tail, if_neg hround, hg, hgr,
      Bool.false_eq_true, false_and, if_false]
    rw [if_neg (by tauto), if_pos ⟨hweak, hCHECK⟩]


/-- C7 witness: the theorem applied at a concrete flop input with a
high-card hand and legal actions FOLD and CALL; the bot calls. -/
theorem c7_weak_hand_prefers_call_witness :
    get_action LevBot.init (fun _ => 0)
      { round_name := "flop", pot := 40, current_bet := 0, big_blind := 10,
        community_cards := [⟨9, .diamonds⟩, ⟨13, .clubs⟩, ⟨4, .spades⟩],
        player_bets := [0] }
      (⟨2, .spades⟩, ⟨7, .hearts⟩) [.FOLD, .CALL] 10 100 = some (.CALL, 0) :=
  (c7_weak_hand_prefers_call LevBot.init (fun _ => 0)
    { round_name := "flop", pot := 40, current_bet := 0, big_blind := 10,
      community_cards := [⟨9, .diamonds⟩, ⟨13, .clubs⟩, ⟨4, .spades⟩],
      player_bets := [0] }
    (⟨2, .spades⟩, ⟨7, .hearts⟩) [.FOLD, .CALL] 10 100
    (by decide) (by decide)).1 (by decide)

/-- The sorted distinct ranks are invariant under permutation of the
cards. -/
lemma sortedRanks_perm_eq {l l' : List Card} (h : l.Perm l') :
    sortedRanks l = sortedRanks l' := by
  unfold sortedRanks ranksOf
  have hd : ((l.map Card.rank).dedup).Perm ((l'.map Card.rank).dedup) :=
    (h.map Card.rank).dedup
  exact List.eq_of_perm_of_sorted
    (((List.perm_insertionSort _ _).trans hd).trans (List.perm_insertionSort _ _).symm)
    (List.sorted_insertionSort _ _) (List.sorted_insertionSort _ _)

/-- The flush-draw scan is invariant under permutation of the suits. -/
lemma flushDrawCheck_perm {l l' : List Suit} (h : l.Perm l') :
    flushDrawCheck l = flushDrawCheck l' := by
  unfold flushDrawCheck
  rw [Bool.eq_iff_iff]
  simp only [List.any_eq_true, List.mem_dedup, beq_iff_eq]
  constructor
  · rintro ⟨s, hs, hc⟩
    exact ⟨s, h.mem_iff.mp hs, by rw [← h.count_eq]; exact hc⟩
  · rintro ⟨s, hs, hc⟩
    exact ⟨s, h.mem_iff.mpr hs, by rw [h.count_eq]; exact hc⟩

/-- C8: `_has_strong_draw` is invariant under permutation of its input
card sequence. -/
theorem c8_strong_draw_perm_invariant (l l' : List Card) (h : l.Perm l') :
    has_strong_draw l = has_strong_draw l' := by
  unfold has_strong_draw suitsOf
  rw [sortedRanks_perm_eq h, flushDrawCheck_perm (h.map Card.suit)]

/-- C8 witness: the permutation-invariance theorem applied to a concrete
two-card list and its swap. -/
theorem c8_strong_draw_perm_invariant_witness :
    ([⟨2, Suit.spades⟩, ⟨7, Suit.hearts⟩] : List Card).Perm
        [⟨7, Suit.hearts⟩, ⟨2, Suit.spades⟩]
    ∧ has_strong_draw [⟨2, Suit.spades⟩, ⟨7, Suit.hearts⟩]
        = has_strong_draw [⟨7, Suit.hearts⟩, ⟨2, Suit.spades⟩] :=
  ⟨by decide, c8_strong_draw_perm_invariant _ _ (by decide)⟩

/-- C9: `get_action` never returns the ALL_IN action, whatever the
inputs (in particular even when ALL_IN is legal). -/
theorem c9_never_all_in (self : LevBot) (rand : ℕ → ℚ) (gs : GameState)
    (hole : Card × Card) (legal : List PlayerAction) (min_bet max_bet : ℚ)
    (p : PlayerAction × ℚ)
    (h : get_action self rand gs hole legal min_bet max_bet = some p) :
    p.1 ≠ PlayerAction.ALL_IN := by
  rcases get_action_cases h with ⟨h1, _, _⟩ | ⟨rfl, _⟩ | ⟨rfl, _⟩ | rfl
  · rw [h1]; decide
  · decide
  · decide
  · decide

/-- C9 witness: the theorem applied at a concrete preflop input whose
legal actions include ALL_IN; the bot calls. -/
theorem c9_never_all_in_witness :
    (PlayerAction.CALL, (0:ℚ)).1 ≠ PlayerAction.ALL_IN := by
  refine c9_never_all_in LevBot.init (fun _ => 0)
    { round_name := "preflop", pot := 30, current_bet := 20, big_blind := 10,
      community_cards := [], player_bets := [20] }
    (⟨14, .spades⟩, ⟨14, .hearts⟩) [.FOLD, .CALL, .RAISE, .ALL_IN] 20 500 (.CALL, 0) ?_
  unfold get_action preflop_strategy
  norm_num +decide [LevBot.init, is_premium_starting_hand]

/-- C10: at a concrete input whose pot, big blind, current bet and bet
bounds are all integers, `get_action` returns a RAISE of 3/2 — the
preflop raise of `0.3 * big_blind` with `big_blind = 5` — and 3/2 is not
an integer: raise amounts are computed and clamped in fractional
arithmetic without rounding. -/
theorem c10_fractional_raise_amount :
    get_action LevBot.init (fun n => if n = 0 then 1/2 else 1/10)
      { round_name := "preflop", pot := 10, current_bet := 1, big_blind := 5,
        community_cards := [], player_bets := [1] }
      (⟨2, .spades⟩, ⟨7, .hearts⟩)
      [.FOLD, .CALL, .RAISE] 1 100 = some (.RAISE, 3/2)
    ∧ ¬ ∃ z : ℤ, ((3:ℚ)/2) = (z:ℚ) := by
  constructor
  · unfold get_action preflop_strategy
    norm_num +decide [LevBot.init, is_premium_starting_hand, clamp_raise_amount,
      apply_raise_amount_if_able]
  · rintro ⟨z, hz⟩
    have h3 : (3:ℚ) = 2 * (z:ℚ) := by
      rw [div_eq_iff (by norm_num : (2:ℚ) ≠ 0)] at hz
      linarith
    have h3' : (3:ℤ) = 2 * z := by exact_mod_cast h3
    omega
